import Mathlib

/-!
Verification of core components of the wasmer runtime (spacemeshos/wasmer):
shallow embeddings of the trap-recovery barrier (clif-backend signal/unix.rs),
the index-space projection and memory descriptors (runtime-core types.rs),
the middleware chain and streaming compiler (runtime-core codegen.rs),
the Cranelift module code generator (clif-backend code.rs), and the local
loader (runtime-core loader.rs), with theorems settling the specified
properties of each.
-/

namespace Wasmer

/-! ## Trap recovery barrier: clif-backend/src/signal/unix.rs -/

/-- The four synchronous CPU signals handled by `install_sighandler`, plus the
cases reachable through `Signal::from_c_int` on an arbitrary `signum`:
`otherValid n` is a recognized-but-unhandled signal, `invalid n` is a
`c_int` for which `Signal::from_c_int` returns `Err`. -/
inductive Signal where
  | SIGFPE
  | SIGILL
  | SIGSEGV
  | SIGBUS
  | otherValid (n : Nat)
  | invalid (n : Nat)
deriving DecidableEq, Repr

/-- `TrapCode` as used by `crate::relocation` (re-exported from Cranelift IR).
The variants named in the `call_protected` match arms are listed explicitly;
`Interrupt` and `user n` are the remaining Cranelift trap codes, which fall
into the `_` catch-all arm. -/
inductive TrapCode where
  | StackOverflow
  | HeapOutOfBounds
  | TableOutOfBounds
  | OutOfBounds
  | IndirectCallToNull
  | BadSignature
  | IntegerOverflow
  | IntegerDivisionByZero
  | BadConversionToInteger
  | UnreachableCodeReached
  | Interrupt
  | user (n : Nat)
deriving DecidableEq, Repr

/-- `ExceptionCode` from `wasmer_runtime_core::backend`, restricted to the
variants produced by `call_protected`. -/
inductive ExceptionCode where
  | Unreachable
  | IncorrectCallIndirectSignature
  | MemoryOutOfBounds
  | CallIndirectOOB
  | IllegalArithmetic
deriving DecidableEq, Repr

/-- `TrapData { trapcode, srcloc }` from `crate::relocation`; `srcloc` is an
opaque source location (the classification ignores it: `srcloc: _`). -/
structure TrapData where
  trapcode : TrapCode
  srcloc : Nat
deriving DecidableEq, Repr

/-- The payload boxed into `CallProtError`: either a typed `ExceptionCode`, a
`String` error message, the one-shot trap-early data (an opaque boxed value,
modelled by its identity), or a process-level panic reached through
`unimplemented!`. -/
inductive ErrPayload where
  | exc (e : ExceptionCode)
  | msg (s : String)
  | early (d : Nat)
  | panicked
deriving DecidableEq, Repr

/-- Hexadecimal pointer rendering used by `format!("{:p}", faulting_addr)`. -/
def fmtPtr (addr : Nat) : String :=
  "0x" ++ String.mk (Nat.toDigits 16 addr)

/-- The human-readable signal name chosen in the no-relocation branch of
`call_protected` (unix.rs lines 117-124). -/
def signalName (s : Signal) : String :=
  match s with
  | .SIGFPE => "floating-point exception"
  | .SIGILL => "illegal instruction"
  | .SIGSEGV => "segmentation violation"
  | .SIGBUS => "bus error"
  | .invalid _ => "error while getting the Signal"
  | .otherValid _ => "unknown trapped signal"

/-- All inputs to the fault-classification code in `call_protected`
(unix.rs lines 78-129): the signal number returned by `setjmp` after the
`longjmp`, the state of the `TRAP_EARLY_DATA` one-shot slot at catch time,
the result of `handler_data.lookup(inst_ptr)` for the captured faulting
instruction pointer, and the captured faulting address. -/
structure FaultSpec where
  signum : Signal
  trapEarly : Option Nat
  lookup : Option TrapData
  faultingAddr : Nat
deriving DecidableEq, Repr

/-- The fault branch of `call_protected` (unix.rs lines 81-128): checks the
one-shot `TRAP_EARLY_DATA` slot first; otherwise, with a matching
`TrapData` relocation, classifies by signal (and, for SIGILL, by trapcode);
otherwise builds the generic "unknown trap at ADDR" message. -/
def faultClassify (fs : FaultSpec) : ErrPayload :=
  match fs.trapEarly with
  | some d => .early d
  | none =>
    match fs.lookup with
    | some td =>
      match fs.signum with
      | .SIGILL =>
        match td.trapcode with
        | .StackOverflow => .exc .MemoryOutOfBounds
        | .HeapOutOfBounds => .exc .MemoryOutOfBounds
        | .TableOutOfBounds => .exc .CallIndirectOOB
        | .OutOfBounds => .exc .MemoryOutOfBounds
        | .IndirectCallToNull => .exc .CallIndirectOOB
        | .BadSignature => .exc .IncorrectCallIndirectSignature
        | .IntegerOverflow => .exc .IllegalArithmetic
        | .IntegerDivisionByZero => .exc .IllegalArithmetic
        | .BadConversionToInteger => .exc .IllegalArithmetic
        | .UnreachableCodeReached => .exc .Unreachable
        | _ => .msg "unknown clif trap code"
      | .SIGSEGV => .exc .MemoryOutOfBounds
      | .SIGBUS => .exc .MemoryOutOfBounds
      | .SIGFPE => .exc .IllegalArithmetic
      | _ => .panicked
    | none =>
      .msg ("unknown trap at " ++ fmtPtr fs.faultingAddr ++ " - " ++ signalName fs.signum)

/-- The Trapcode -> ExceptionCode table exactly as the spec states it
(spec section 4.7); `none` marks a trapcode not listed in the table. -/
def specTrapToExc (tc : TrapCode) : Option ExceptionCode :=
  match tc with
  | .StackOverflow => some .MemoryOutOfBounds
  | .HeapOutOfBounds => some .MemoryOutOfBounds
  | .OutOfBounds => some .MemoryOutOfBounds
  | .TableOutOfBounds => some .CallIndirectOOB
  | .IndirectCallToNull => some .CallIndirectOOB
  | .BadSignature => some .IncorrectCallIndirectSignature
  | .IntegerOverflow => some .IllegalArithmetic
  | .IntegerDivisionByZero => some .IllegalArithmetic
  | .BadConversionToInteger => some .IllegalArithmetic
  | .UnreachableCodeReached => some .Unreachable
  | .Interrupt => none
  | .user _ => none

/-! ### The protected-call region and its thread-local setjmp buffer

`call_protected` (unix.rs lines 65-135) saves the current contents of the
thread-local `SETJMP_BUFFER` into the stack local `prev_jmp_buf`, lets
`setjmp` overwrite the buffer with the current frame, runs the closure, and
writes `prev_jmp_buf` back on both the caught-fault path (line 79) and the
normal-return path (line 132).  The closure may re-enter Wasm through a
host call, which runs a nested `call_protected`.  `Body` is the shape of
such a closure: it either returns, raises a CPU fault (caught by the
innermost active protected region, whose buffer `do_unwind` longjmps
through without modifying it), or performs a nested protected call - each
nested site carrying the buffer contents its own `setjmp` writes - and
continues. -/
inductive Body (Buf : Type) where
  | ret
  | trap (fs : FaultSpec)
  | call (innerFrame : Buf) (inner : Body Buf) (rest : Body Buf)

mutual

/-- `call_protected` (unix.rs lines 65-135), modelled over an abstract buffer
type: `frame` is the buffer contents written by this invocation's `setjmp`,
`tls` the thread-local `SETJMP_BUFFER` contents on entry.  Returns the
result together with the buffer contents on return. -/
def callProtected {Buf : Type} (frame : Buf) (body : Body Buf) (tls : Buf) :
    Except ErrPayload Unit × Buf :=
  let prev_jmp_buf := tls
  -- setjmp(jmp_buf) returns 0 and fills the thread-local buffer
  let tls1 := frame
  match runBody body tls1 with
  | (_, some fs) =>
    -- a fault was caught: first *jmp_buf = prev_jmp_buf, then classify
    let tls2 := prev_jmp_buf
    (.error (faultClassify fs), tls2)
  | (_, none) =>
    -- let ret = f(); *jmp_buf = prev_jmp_buf; Ok(ret)
    let tls2 := prev_jmp_buf
    (.ok (), tls2)

/-- Runs a closure body, threading the thread-local `SETJMP_BUFFER` contents;
returns the buffer contents afterwards, and the fault that escapes to the
innermost enclosing protected region, if one is raised. -/
def runBody {Buf : Type} (body : Body Buf) (tls : Buf) : Buf × Option FaultSpec :=
  match body with
  | .ret => (tls, none)
  | .trap fs => (tls, some fs)
  | .call innerFrame inner rest =>
    let (_, tls1) := callProtected innerFrame inner tls
    runBody rest tls1

end

/-! ### Theorems for the trap recovery barrier -/

/-- C1: for every fault caught inside `call_protected` whose faulting
instruction pointer has a matching `TrapData` relocation and whose signal is
SIGILL (and whose trap-early slot is empty, i.e. a genuine CPU fault), the
returned error's `ExceptionCode` is determined by the trapcode exactly as
the spec table states, each listed trapcode mapping to exactly one
`ExceptionCode` (`specTrapToExc` is a function), and any unlisted trapcode
producing the error string "unknown clif trap code". -/
theorem sigill_fault_classified_by_spec_table (td : TrapData) (addr : Nat) :
    faultClassify { signum := .SIGILL, trapEarly := none,
                    lookup := some td, faultingAddr := addr } =
      (match specTrapToExc td.trapcode with
       | some e => .exc e
       | none => .msg "unknown clif trap code") := by
  cases td with
  | mk tc srcloc => cases tc <;> rfl

/-- C2: for every invocation of `call_protected` - over any body, including
bodies that re-enter Wasm through host calls and run nested protected
regions, and whatever buffer contents each `setjmp` writes - the
thread-local setjmp buffer that was current on entry is restored before
`call_protected` returns, on both the normal-return path and the
caught-fault path. -/
theorem call_protected_restores_setjmp_buffer {Buf : Type} (frame : Buf)
    (body : Body Buf) (tls : Buf) :
    (callProtected frame body tls).2 = tls := by
  unfold callProtected
  cases h : runBody body frame with
  | mk tlsAfter fault => cases fault <;> simp [h]

/-- C3 counterexample: a fault whose faulting instruction pointer has no
matching relocation entry does not produce the typed `ExceptionCode` the
claim states.  Concretely, for a SIGSEGV at address 0 with no matching
relocation (and nothing in the trap-early slot), `call_protected` returns
the generic string error "unknown trap at 0x0 - segmentation violation",
not `ExceptionCode::MemoryOutOfBounds`. -/
theorem no_relocation_sigsegv_not_typed :
    faultClassify { signum := .SIGSEGV, trapEarly := none,
                    lookup := none, faultingAddr := 0 } =
        .msg "unknown trap at 0x0 - segmentation violation" ∧
      faultClassify { signum := .SIGSEGV, trapEarly := none,
                      lookup := none, faultingAddr := 0 } ≠
        .exc .MemoryOutOfBounds := by
  constructor
  · rfl
  · decide

/-- C3 amended: the raw-signal classification (SIGSEGV/SIGBUS ->
MemoryOutOfBounds, SIGFPE -> IllegalArithmetic) applies to faults *with* a
matching relocation whose signal is not SIGILL; a fault with *no* matching
relocation returns the generic "unknown trap at ADDR" string error built
from the faulting address and the signal name. -/
theorem raw_signal_classification (td : TrapData) (addr : Nat) (s : Signal) :
    faultClassify { signum := .SIGSEGV, trapEarly := none,
                    lookup := some td, faultingAddr := addr } =
        .exc .MemoryOutOfBounds ∧
      faultClassify { signum := .SIGBUS, trapEarly := none,
                      lookup := some td, faultingAddr := addr } =
        .exc .MemoryOutOfBounds ∧
      faultClassify { signum := .SIGFPE, trapEarly := none,
                      lookup := some td, faultingAddr := addr } =
        .exc .IllegalArithmetic ∧
      faultClassify { signum := s, trapEarly := none,
                      lookup := none, faultingAddr := addr } =
        .msg ("unknown trap at " ++ fmtPtr addr ++ " - " ++ signalName s) := by
  refine ⟨rfl, rfl, rfl, ?_⟩
  rfl

/-! ## Index spaces: runtime-core/src/types.rs

The `define_map_index!` / `define_local_or_import!` macros generate, for each
of the four index-space kinds, a combined-index newtype over `u32` whose
`TypedIndex::new` truncates a `usize` to `u32`, a `local_or_import`
projection comparing against the length of the corresponding imports map in
`ModuleInfo`, and `convert_up` promotions on the two sub-index types. -/

/-- The four index-space kinds the macros are instantiated at
(`FuncIndex`, `MemoryIndex`, `TableIndex`, `GlobalIndex`). -/
inductive IndexKind where
  | func
  | memory
  | table
  | global
deriving DecidableEq, Repr

/-- The fields of `ModuleInfo` that `local_or_import` and `convert_up`
consult: the lengths of the four import maps. -/
structure ModuleInfo where
  imported_functions : Nat
  imported_memories : Nat
  imported_tables : Nat
  imported_globals : Nat
deriving DecidableEq, Repr

/-- `info.$imports.len()` for the imports map selected by the macro
instantiation for kind `k`. -/
def importsLen (info : ModuleInfo) (k : IndexKind) : Nat :=
  match k with
  | .func => info.imported_functions
  | .memory => info.imported_memories
  | .table => info.imported_tables
  | .global => info.imported_globals

/-- `LocalOrImport<T>`: the two disjoint sub-index spaces.  The carried `Nat`
is the `u32` stored by `TypedIndex::new` (which casts `usize as u32`, hence
the `% 2^32`s below). -/
inductive LocalOrImport where
  | Local (n : Nat)
  | Import (n : Nat)
deriving DecidableEq, Repr

/-- `$ty::local_or_import` (types.rs lines 463-471): a combined index `i`
projects to `Import(i)` when `i < info.$imports.len()`, else to
`Local(i - info.$imports.len())`; both sub-indices are stored through
`TypedIndex::new`, i.e. `usize as u32`. -/
def local_or_import (info : ModuleInfo) (k : IndexKind) (i : Nat) : LocalOrImport :=
  if i < importsLen info k then
    .Import (i % 2 ^ 32)
  else
    .Local ((i - importsLen info k) % 2 ^ 32)

/-- `convert_up` on the two sub-index types (types.rs lines 473-483):
`$local_ty` adds `info.$imports.len()` and casts to `u32`; `$imported_ty`
casts its index to `u32` unchanged. -/
def convert_up (info : ModuleInfo) (k : IndexKind) : LocalOrImport → Nat
  | .Local n => (n + importsLen info k) % 2 ^ 32
  | .Import n => n % 2 ^ 32

/-- C4: for every combined index `i` (a `u32`, so `i < 2^32`) in each of the
four index-space kinds and every `ModuleInfo`, promoting the projection of
`i` back to a combined index is the identity; the projection is an `Import`
sub-index iff `i < imports[k].len()`; and otherwise it is a `Local`
sub-index equal to `i - imports[k].len()`. -/
theorem index_projection_roundtrip (info : ModuleInfo) (k : IndexKind)
    (i : Nat) (h : i < 2 ^ 32) :
    convert_up info k (local_or_import info k i) = i ∧
      ((∃ n, local_or_import info k i = .Import n) ↔ i < importsLen info k) ∧
      (importsLen info k ≤ i →
        local_or_import info k i = .Local (i - importsLen info k)) := by
  by_cases hlt : i < importsLen info k
  · simp only [local_or_import, convert_up, if_pos hlt]
    refine ⟨by omega, ⟨fun _ => hlt, fun _ => ⟨i % 2 ^ 32, rfl⟩⟩,
      fun hle => absurd hle (by omega)⟩
  · simp only [local_or_import, convert_up, if_neg hlt]
    refine ⟨by omega, ⟨?_, fun hc => absurd hc hlt⟩, fun _ => ?_⟩
    · rintro ⟨n, hn⟩
      exact nomatch hn
    · congr 1
      omega

/-- Witness for C4: at `info = ⟨2, 0, 0, 0⟩`, kind `func`, combined index 5:
the hypothesis `5 < 2^32` holds and the roundtrip/projection facts evaluate
as stated. -/
theorem index_projection_roundtrip_witness :
    (5 : Nat) < 2 ^ 32 ∧
      (convert_up ⟨2, 0, 0, 0⟩ .func (local_or_import ⟨2, 0, 0, 0⟩ .func 5) = 5 ∧
        ((∃ n, local_or_import ⟨2, 0, 0, 0⟩ .func 5 = .Import n) ↔
          5 < importsLen ⟨2, 0, 0, 0⟩ .func) ∧
        (importsLen ⟨2, 0, 0, 0⟩ .func ≤ 5 →
          local_or_import ⟨2, 0, 0, 0⟩ .func 5 =
            .Local (5 - importsLen ⟨2, 0, 0, 0⟩ .func))) :=
  ⟨by norm_num, index_projection_roundtrip ⟨2, 0, 0, 0⟩ .func 5 (by norm_num)⟩

/-! ## Memory descriptors: runtime-core/src/types.rs -/

/-- `MemoryType` from `runtime_core::memory` as consumed by
`MemoryDescriptor::memory_type` and the Cranelift heap builder. -/
inductive MemoryType where
  | Dynamic
  | Static
  | SharedStatic
deriving DecidableEq, Repr

/-- `MemoryDescriptor { minimum, maximum, shared }` (types.rs lines
330-338); page counts modelled as naturals. -/
structure MemoryDescriptor where
  minimum : Nat
  maximum : Option Nat
  shared : Bool
deriving DecidableEq, Repr

/-- `MemoryDescriptor::memory_type` (types.rs lines 341-348): a match on
`(self.maximum.is_some(), self.shared)`; the `(false, true)` arm panics
("shared memory without a max is not allowed"), modelled as `none`. -/
def memory_type (d : MemoryDescriptor) : Option MemoryType :=
  match (d.maximum.isSome, d.shared) with
  | (true, true) => some .SharedStatic
  | (true, false) => some .Static
  | (false, false) => some .Dynamic
  | (false, true) => none

/-- C5: for every `MemoryDescriptor`, `memory_type()` is exactly the
function of (maximum present?, shared) from the spec: (present, true) ->
SharedStatic, (present, false) -> Static, (absent, false) -> Dynamic; and
maximum absent with shared = true is rejected as invalid (a panic). -/
theorem memory_type_derivation (minPages maxPages : Nat) :
    memory_type ⟨minPages, some maxPages, true⟩ = some .SharedStatic ∧
      memory_type ⟨minPages, some maxPages, false⟩ = some .Static ∧
      memory_type ⟨minPages, none, false⟩ = some .Dynamic ∧
      memory_type ⟨minPages, none, true⟩ = none :=
  ⟨rfl, rfl, rfl, rfl⟩

/-! ## Middleware chain: runtime-core/src/codegen.rs -/

/-- `InternalEvent` (codegen.rs lines 31-37); the breakpoint handler closure
is opaque, modelled by an identity. -/
inductive InternalEvent where
  | FunctionBegin (n : Nat)
  | FunctionEnd
  | Breakpoint (handler : Nat)
  | SetInternal (n : Nat)
  | GetInternal (n : Nat)
deriving DecidableEq, Repr

/-- `Event` (codegen.rs lines 25-29); the wrapped `wasmparser::Operator` is
opaque, modelled by an identity. -/
inductive Event where
  | Internal (e : InternalEvent)
  | Wasm (op : Nat)
  | WasmOwned (op : Nat)
deriving DecidableEq, Repr

/-- One middleware stage (`Box<GenericFunctionMiddleware>`): its current
state together with its `feed_event` transition, which consumes one event
and either fails with a stringified error or returns the updated state and
the events it pushed into the sink, in push order.  `σ` is the stage's
state type. -/
structure Middleware (σ : Type) where
  state : σ
  feed : σ → Event → Except String (σ × List Event)

/-- The inner loop of `MiddlewareChain::run` (codegen.rs lines 258-261): one
stage consumes the drained previous buffer event by event; the events it
pushes accumulate, in order, into the new sink buffer.  A stage error
aborts via `?`. -/
def feedEvents {σ : Type} (m : Middleware σ) :
    List Event → Except String (Middleware σ × List Event)
  | [] => .ok (m, [])
  | ev :: rest => do
    let (s1, out1) ← m.feed m.state ev
    let (m2, out2) ← feedEvents { m with state := s1 } rest
    .ok (m2, out1 ++ out2)

/-- The stage loop of `MiddlewareChain::run` (codegen.rs lines 257-262):
stages run left to right; each stage's accumulated sink buffer is drained
and becomes the input of the next stage. -/
def runChain {σ : Type} :
    List (Middleware σ) → List Event →
      Except String (List (Middleware σ) × List Event)
  | [], sink => .ok ([], sink)
  | m :: ms, sink => do
    let (m1, sink1) ← feedEvents m sink
    let (ms1, sink2) ← runChain ms sink1
    .ok (m1 :: ms1, sink2)

/-- The active function code generator as `MiddlewareChain::run` sees it:
its state and its `feed_event`, whose error is stringified with
`format!("{:?}", _)` (modelled as an opaque `String`). -/
structure Fcg (ε : Type) where
  state : ε
  feed : ε → Event → Except String ε

/-- The delivery loop of `MiddlewareChain::run` (codegen.rs lines 263-268):
the events remaining in the sink after the last stage are fed to the
active FCG one by one, in order. -/
def deliver {ε : Type} (f : Fcg ε) : List Event → Except String (Fcg ε)
  | [] => .ok f
  | ev :: rest => do
    let s1 ← f.feed f.state ev
    deliver { f with state := s1 } rest

/-- `MiddlewareChain::run` (codegen.rs lines 247-271): the sink starts as the
single inbound event, the chain transforms it stage by stage, and the
result is delivered to the FCG when one is active. -/
def MiddlewareChain.run {σ ε : Type} (chain : List (Middleware σ))
    (fcg : Option (Fcg ε)) (ev : Event) :
    Except String (List (Middleware σ) × Option (Fcg ε)) := do
  let sink := [ev]
  let (chain1, sink1) ← runChain chain sink
  match fcg with
  | some f => do
    let f1 ← deliver f sink1
    .ok (chain1, some f1)
  | none => .ok (chain1, none)

/-- An FCG that only logs the events it is fed, used to observe the exact
delivery order. -/
def logFcg (log : List Event) : Fcg (List Event) :=
  { state := log, feed := fun s ev => .ok (s ++ [ev]) }

/-- The logging FCG records exactly the delivered events, in order. -/
theorem deliver_logFcg (evs : List Event) : ∀ log : List Event,
    deliver (logFcg log) evs = .ok (logFcg (log ++ evs)) := by
  induction evs with
  | nil => intro log; simp [deliver, logFcg]
  | cons ev rest ih =>
    intro log
    simp only [deliver, logFcg, Except.bind]
    have := ih (log ++ [ev])
    simp [logFcg] at this
    simpa using this

/-- Splitting the chain: running `ms1 ++ ms2` equals running `ms1` and
feeding its final sink buffer into `ms2`.  In particular each stage's
pushed events form exactly the input sequence of the next stage. -/
theorem runChain_append {σ : Type} (ms1 ms2 : List (Middleware σ))
    (sink : List Event) :
    runChain (ms1 ++ ms2) sink =
      (runChain ms1 sink).bind fun p =>
        (runChain ms2 p.2).map fun q => (p.1 ++ q.1, q.2) := by
  induction ms1 generalizing sink with
  | nil =>
    simp only [List.nil_append, runChain, Except.bind]
    cases runChain ms2 sink <;> simp [Except.map, Except.bind]
  | cons m ms ih =>
    simp only [List.cons_append, runChain, Except.bind, bind]
    cases feedEvents m sink with
    | error e => simp [Except.bind]
    | ok p =>
      simp only [Except.bind, List.append_eq]
      rw [ih p.2]
      cases runChain ms p.2 with
      | error e => simp [Except.bind]
      | ok q =>
        simp only [Except.bind]
        cases runChain ms2 q.2 <;> simp [Except.map, Except.bind]

/-- C6: for every middleware chain and inbound event, (a) the chain runs its
stages left-to-right with each stage's pushed events forming exactly the
input sequence of the next stage (running `ms1 ++ ms2` is running `ms1` and
piping its output buffer into `ms2`), and (b) the events remaining after
the last stage are delivered to the active function code generator in
exactly that order (a logging FCG ends up holding precisely the final sink
buffer). -/
theorem middleware_chain_order {σ : Type} (ms1 ms2 : List (Middleware σ))
    (sink : List Event) (ev : Event) (log : List Event) :
    (runChain (ms1 ++ ms2) sink =
        (runChain ms1 sink).bind fun p =>
          (runChain ms2 p.2).map fun q => (p.1 ++ q.1, q.2)) ∧
      MiddlewareChain.run ms1 (some (logFcg log)) ev =
        (runChain ms1 [ev]).map fun p => (p.1, some (logFcg (log ++ p.2))) := by
  refine ⟨runChain_append ms1 ms2 sink, ?_⟩
  simp only [MiddlewareChain.run, Except.bind, bind]
  cases runChain ms1 [ev] with
  | error e => simp [Except.map, Except.bind]
  | ok p =>
    simp only [Except.bind, deliver_logFcg, Except.map]

/-! ## Streaming compiler: runtime-core/src/codegen.rs -/

/-- `Backend` from `runtime_core::backend`, as matched by
`requires_pre_validation`. -/
inductive Backend where
  | Cranelift
  | LLVM
  | Singlepass
deriving DecidableEq, Repr

/-- `requires_pre_validation` (codegen.rs lines 216-222). -/
def requires_pre_validation (backend : Backend) : Bool :=
  match backend with
  | .Cranelift => true
  | .LLVM => false
  | .Singlepass => false

/-- The `wasmparser::ParserState` values distinguished by `validate`'s loop:
`EndWasm`, `Error(err)` (carrying the decoder's message), and everything
else, which the loop skips. -/
inductive ParserState where
  | endWasm
  | error (msg : String)
  | other
deriving DecidableEq, Repr

/-- The error taxonomy of `CompileError` as produced by
`StreamingCompiler::compile`: a decoder rejection or an internal backend
failure. -/
inductive CompileError where
  | ValidationError (msg : String)
  | InternalError (msg : String)
deriving DecidableEq, Repr

/-- `validate` (codegen.rs lines 153-166): drives a
`wasmparser::ValidatingParser` over the whole byte stream, represented by
the sequence of states it reads; the first `EndWasm` is success, the first
`Error` aborts with a `ValidationError` carrying the decoder's message.
(The real parser always terminates the stream with one of the two; an
exhausted stream is modelled as reaching `EndWasm`.) -/
def validate : List ParserState → Except CompileError Unit
  | [] => .ok ()
  | .endWasm :: _ => .ok ()
  | .error msg :: _ => .error (.ValidationError msg)
  | .other :: rest => validate rest

/-- `StreamingCompiler::compile` (codegen.rs lines 176-205), with the
post-validation pipeline (`read_module` followed by `finalize`, both
external to this file's claims) abstracted as its outcome `pipeline`, and
the module binary represented by the state stream its validating parse
produces.  The pre-pass runs first, and only when the configured backend
requires it. -/
def StreamingCompiler.compile {Module : Type} (backend : Backend)
    (states : List ParserState) (pipeline : Except CompileError Module) :
    Except CompileError Module := do
  if requires_pre_validation backend then
    let () ← validate states
    pipeline
  else
    pipeline

/-- C8: the complete validation pre-pass runs before any parsing/codegen
step iff the backend requires it - Cranelift does, LLVM and Singlepass do
not: for the latter two the compile outcome is the pipeline's outcome
whatever the validator would say, while for Cranelift a decode error in the
pre-pass aborts the whole compilation with a `ValidationError` carrying the
decoder's message, for every possible pipeline outcome. -/
theorem pre_validation_gate {Module : Type} (states : List ParserState)
    (pipeline : Except CompileError Module) (msg : String) :
    (requires_pre_validation .Cranelift = true ∧
        requires_pre_validation .LLVM = false ∧
        requires_pre_validation .Singlepass = false) ∧
      (validate states = .error (.ValidationError msg) →
        StreamingCompiler.compile .Cranelift states pipeline =
          .error (.ValidationError msg)) ∧
      StreamingCompiler.compile .LLVM states pipeline = pipeline ∧
      StreamingCompiler.compile .Singlepass states pipeline = pipeline := by
  refine ⟨⟨rfl, rfl, rfl⟩, fun hv => ?_, rfl, rfl⟩
  simp [StreamingCompiler.compile, requires_pre_validation, hv, Except.bind, bind]

/-- Witness for C8: for the concrete stream `[other, error "bad"]` and a
pipeline that would otherwise succeed, validation fails with the decoder's
message and Cranelift compilation aborts with exactly that
`ValidationError`. -/
theorem pre_validation_gate_witness :
    validate [.other, .error "bad"] = .error (.ValidationError "bad") ∧
      StreamingCompiler.compile .Cranelift [.other, .error "bad"]
          (.ok (0 : Nat)) =
        .error (.ValidationError "bad") :=
  ⟨rfl,
    (pre_validation_gate [.other, .error "bad"] (.ok (0 : Nat)) "bad").2.1 rfl⟩

/-! ## Indirect calls: clif-backend/src/code.rs, `translate_call_indirect` -/

/-- The `vm::Anyfunc` table-element record: `{ func_ptr, vmctx_ptr, sig_id }`,
with pointers modelled as machine words. -/
structure Anyfunc where
  func_ptr : Nat
  vmctx : Nat
  sig_id : Nat
deriving DecidableEq, Repr

/-- Cranelift's `select` instruction: `select(c, x, y)` yields `x` when the
condition `c` is nonzero, `y` otherwise. -/
def clif_select (c x y : Nat) : Nat :=
  if c ≠ 0 then x else y

/-- The argument build of `translate_call_indirect` (code.rs lines 785-801
and 844-850), evaluated over a concrete table entry: the vmctx to pass is
`select(loaded_vmctx_ptr, loaded_vmctx_ptr, argument_vmctx_ptr)` - a single
select between the vmctx loaded from the entry's `Anyfunc` and the caller's
own vmctx parameter - and the value list for the `call_indirect` pushes it
first, before the Wasm call arguments. -/
def call_indirect_args (entry : Anyfunc) (caller_vmctx : Nat)
    (call_args : List Nat) : List Nat :=
  let loaded_vmctx_ptr := entry.vmctx
  let argument_vmctx_ptr := caller_vmctx
  let vmctx_ptr := clif_select loaded_vmctx_ptr loaded_vmctx_ptr argument_vmctx_ptr
  vmctx_ptr :: call_args

/-- C7: for every indirect call lowered by the FCG, the VMContext pointer
passed as the first call argument is computed by the single select
instruction `select(loaded, loaded, caller)`: it is the vmctx pointer
loaded from the table entry's `Anyfunc` when that loaded pointer is
nonzero, and otherwise the caller's own vmctx parameter; the remaining
arguments follow unchanged. -/
theorem call_indirect_vmctx_select (entry : Anyfunc) (caller_vmctx : Nat)
    (call_args : List Nat) :
    call_indirect_args entry caller_vmctx call_args =
        clif_select entry.vmctx entry.vmctx caller_vmctx :: call_args ∧
      (call_indirect_args entry caller_vmctx call_args).head? =
        some (if entry.vmctx ≠ 0 then entry.vmctx else caller_vmctx) := by
  exact ⟨rfl, rfl⟩

/-! ## Cranelift MCG function indices: clif-backend/src/code.rs -/

/-- The per-function state the Cranelift MCG keeps for an allocated FCG, as
far as function indexing is concerned: the `LocalFuncIndex` baked into the
function's `ExternalName` by `next_function`. -/
structure CraneliftFcg where
  func_index : Nat
deriving DecidableEq, Repr

/-- The fields of `CraneliftModuleCodeGenerator` (code.rs lines 35-41) that
participate in function-index allocation: the vector of allocated FCGs.
(`isa`, the signature maps and the clif signatures play no part in it.) -/
structure CraneliftMCG where
  functions : List CraneliftFcg
deriving DecidableEq, Repr

/-- `CraneliftModuleCodeGenerator::new()` (code.rs lines 46-55): starts with
an empty function vector. -/
def CraneliftMCG.new : CraneliftMCG :=
  { functions := [] }

/-- `feed_import_function` for the Cranelift MCG (code.rs lines 349-351):
`Ok(())` - it touches no state at all. -/
def feed_import_function (m : CraneliftMCG) : Except String CraneliftMCG :=
  .ok m

/-- The function-index allocation of `next_function` (code.rs lines 65-99):
`let func_index = LocalFuncIndex::new(self.functions.len())`, the new FCG
is built around that index and pushed onto `self.functions`.  Returns the
updated MCG and the allocated index. -/
def next_function (m : CraneliftMCG) : CraneliftMCG × Nat :=
  let func_index := m.functions.length
  ({ functions := m.functions ++ [{ func_index := func_index }] }, func_index)

/-- C9 counterexample: `feed_import_function` does not advance the function
index counter.  Starting from a fresh Cranelift MCG, the function allocated
after a `feed_import_function` call receives index 0 - exactly the index it
would have received without the call, not a later one. -/
theorem feed_import_function_no_advance :
    feed_import_function CraneliftMCG.new = .ok CraneliftMCG.new ∧
      (next_function CraneliftMCG.new).2 = 0 ∧
      (feed_import_function CraneliftMCG.new).map (fun m => (next_function m).2) =
        .ok (next_function CraneliftMCG.new).2 :=
  ⟨rfl, rfl, rfl⟩

/-- C9 amended: for every Cranelift MCG state, `feed_import_function` is a
no-op returning `Ok(())` - it records nothing and advances no counter - and
`next_function` allocates `LocalFuncIndex` equal to the number of functions
allocated so far, unaffected by any number of preceding
`feed_import_function` calls. -/
theorem feed_import_function_noop (m : CraneliftMCG) :
    feed_import_function m = .ok m ∧
      (next_function m).2 = m.functions.length ∧
      (next_function m).1.functions.length = m.functions.length + 1 := by
  refine ⟨rfl, rfl, ?_⟩
  simp [next_function]

/-! ## Local loader: runtime-core/src/loader.rs -/

/-- The Wasm scalar type enum (`types::Type`). -/
inductive Ty where
  | I32
  | I64
  | F32
  | F64
  | V128
deriving DecidableEq, Repr

/-- `types::Value`: integers carried as mathematical integers in their Rust
range, floats by their IEEE bit patterns (the loader only ever consumes
them through `to_bits`, inside `to_u128`), `v128` as a 128-bit word. -/
inductive WValue where
  | I32 (x : Int)
  | I64 (x : Int)
  | F32 (bits : Nat)
  | F64 (bits : Nat)
  | V128 (x : Nat)
deriving DecidableEq, Repr

/-- `Value::ty` (types.rs lines 44-52). -/
def WValue.ty : WValue → Ty
  | .I32 _ => .I32
  | .I64 _ => .I64
  | .F32 _ => .F32
  | .F64 _ => .F64
  | .V128 _ => .V128

/-- `Value::to_u128` (types.rs lines 54-62): `x as u128` sign-extends the
integers (Euclidean remainder by `2^128`), floats go through `to_bits`,
`v128` is returned as is. -/
def WValue.to_u128 : WValue → Nat
  | .I32 x => ((x % (2 ^ 128 : Int))).toNat
  | .I64 x => ((x % (2 ^ 128 : Int))).toNat
  | .F32 bits => bits
  | .F64 bits => bits
  | .V128 x => x

/-- The argument-expansion loop of `LocalInstance::call` (loader.rs lines
65-78): a `V128` argument contributes the low eight bytes of its
little-endian representation (`x % 2^64`) and then the high eight
(`x / 2^64`); every other argument contributes `to_u128() as u64`, a
single word. -/
def expandArgs : List WValue → List Nat
  | [] => []
  | arg :: rest =>
    (if arg.ty = .V128 then
      [arg.to_u128 % 2 ^ 64, (arg.to_u128 / 2 ^ 64) % 2 ^ 64]
    else
      [arg.to_u128 % 2 ^ 64]) ++ expandArgs rest

/-- `LocalInstance::call` (loader.rs lines 64-111): expands the arguments to
64-bit words, resolves the function's code address from `self.offsets[id]`
(an out-of-bounds `id` is a `Vec` index panic, modelled as `none`), then
transmutes and invokes the code with 0 to 5 words - any more returns the
error "too many arguments" before any generated code runs.  The generated
code at a given offset is abstracted as `invoke`. -/
def LocalInstance.call (offsets : List Nat) (invoke : Nat → List Nat → Nat)
    (id : Nat) (args : List WValue) : Option (Except String Nat) :=
  let args_u64 := expandArgs args
  match offsets.get? id with
  | none => none
  | some offset =>
    some (match args_u64.length with
      | 0 | 1 | 2 | 3 | 4 | 5 => .ok (invoke offset args_u64)
      | _ => .error "too many arguments")

/-- The per-argument word expansion exactly as the claim words it: one
64-bit word per argument, except a `V128`, which yields two words, low
64 bits first, then high. -/
def specArgWords (v : WValue) : List Nat :=
  match v with
  | .V128 x => [x % 2 ^ 64, (x / 2 ^ 64) % 2 ^ 64]
  | v => [v.to_u128 % 2 ^ 64]

/-- A 0-to-5-way `match` on a length is the comparison `≤ 5`. -/
theorem match_len_le_five (A B : Except String Nat) (n : Nat) :
    (match n with
      | 0 | 1 | 2 | 3 | 4 | 5 => A
      | _ => B) = if n ≤ 5 then A else B := by
  match n with
  | 0 | 1 | 2 | 3 | 4 | 5 => rfl
  | n + 6 =>
    have : ¬(n + 6 ≤ 5) := by omega
    simp [this]

/-- C10: for every call through the local loader's instance (with a valid
function id), each argument expands to one 64-bit word except a `V128`
argument, which expands to two (low 64 bits first, then high); and the call
invokes the generated code on exactly the expanded words when they number
at most 5, while a longer expansion returns the error "too many arguments"
without invoking any generated code (the outcome does not mention
`invoke`). -/
theorem local_instance_call_shape (offsets : List Nat)
    (invoke : Nat → List Nat → Nat) (id : Nat) (args : List WValue)
    (h : id < offsets.length) :
    expandArgs args = args.flatMap specArgWords ∧
      LocalInstance.call offsets invoke id args =
        some (if (expandArgs args).length ≤ 5 then
            .ok (invoke (offsets.get ⟨id, h⟩) (expandArgs args))
          else
            .error "too many arguments") := by
  constructor
  · induction args with
    | nil => rfl
    | cons arg rest ih =>
      cases arg <;> simp [expandArgs, specArgWords, WValue.ty, WValue.to_u128, ih]
  · unfold LocalInstance.call
    rw [List.get?_eq_get h]
    simp only [Option.some.injEq]
    exact match_len_le_five _ _ _

/-- Witness for C10: with a one-entry offset table, function id 0 (so the
bound hypothesis holds) and six `i32` arguments - an expansion of six
words - the call returns exactly the "too many arguments" error. -/
theorem local_instance_call_shape_witness :
    LocalInstance.call [0] (fun _ _ => 7) 0 (List.replicate 6 (WValue.I32 1)) =
      some (.error "too many arguments") := by
  have h := (local_instance_call_shape [0] (fun _ _ => 7) 0
    (List.replicate 6 (WValue.I32 1)) (by decide)).2
  exact h.trans (by rfl)

end Wasmer
